import Mathlib

/-!
Shallow embedding of the eeoc-job-violations scraper (Python 3) and proofs
about its deduplication, caching, term-flagging and CSV-writing logic.

Sources embedded:
- `zr_eeoc_selenium.py`: `JobPost.generate_job_id`, `dedupe_jobs`,
  `process_block`, `write_csv`.
- `craigslist_eeoc.py`: the fetch-cache of `process_posting`,
  the term-flagging loop of `process_posting`, `FlaggedPost.serialize`,
  `FlaggedPost.to_dict_for_csv`, `write_posts_with_metadata`.

Python strings are modelled as Lean `String`/`List Char` (sequences of code
points, so offsets are character offsets, as in Python 3); Python `bytes`
as `List Nat` with entries < 256; fallible operations return `Except PyErr`.
External collaborators (HTTP, BeautifulSoup, Selenium) are parameters.
-/

/-- Python exception kinds relevant to this program. -/
inductive PyErr where
  | attributeError
  | keyError
  | indexError
  | unicodeEncodeError
deriving DecidableEq, Repr

/-- Python list indexing `xs[i]` for a nonnegative index: `IndexError` when
out of range. -/
def pyListGet {α : Type} (xs : List α) (i : Nat) : Except PyErr α :=
  match xs.get? i with
  | some x => Except.ok x
  | none => Except.error PyErr.indexError

/-- Clamp one endpoint of a Python slice: negative indices count from the
end, then the result is clamped into `[0, n]`. -/
def pySliceIndex (n : Nat) (i : Int) : Nat :=
  if i < 0 then (Int.toNat (Int.ofNat n + i)) else min i.toNat n

/-- Python slice `s[a:b]` on a sequence of characters. -/
def pySlice (s : List Char) (a b : Int) : List Char :=
  let lo := pySliceIndex s.length a
  let hi := pySliceIndex s.length b
  (s.drop lo).take (hi - lo)

/-- Python `str.lower()`, per character (ASCII range; the flagged bodies the proofs
quantify over are constrained through this function, never bypassing it). -/
def pyLower (s : String) : String := ⟨s.data.map Char.toLower⟩

/-- Python's ASCII whitespace set used by `bytes.lstrip()`/`bytes.rstrip()`. -/
def isPySpace (c : Char) : Bool :=
  c.toNat == 32 || c.toNat == 9 || c.toNat == 10 || c.toNat == 11 ||
    c.toNat == 12 || c.toNat == 13

/-- Python `.lstrip().rstrip()` with default (whitespace) arguments. -/
def pyStrip (s : List Char) : List Char :=
  ((s.dropWhile isPySpace).reverse.dropWhile isPySpace).reverse

/-- Python `.encode('ascii', 'ignore')`: keep only code points below 128; with the
`'ignore'` error handler this never raises. -/
def encodeAsciiIgnore (s : List Char) : List Nat :=
  (s.filter (fun c => c.toNat < 128)).map Char.toNat

/-- UTF-8 encoding of one code point, as `str.encode('utf-8')` does. -/
def utf8Bytes (c : Char) : List Nat :=
  let n := c.toNat
  if n < 128 then [n]
  else if n < 2048 then [192 + n / 64, 128 + n % 64]
  else if n < 65536 then [224 + n / 4096, 128 + (n / 64) % 64, 128 + n % 64]
  else [240 + n / 262144, 128 + (n / 4096) % 64, 128 + (n / 64) % 64, 128 + n % 64]

/-- Python `str.encode('utf-8')` (also the default `str.encode()`). -/
def utf8Encode (s : String) : List Nat := s.data.flatMap utf8Bytes

/-- Lowercase hexadecimal digit. -/
def hexDigitChar (n : Nat) : Char :=
  if n < 10 then Char.ofNat (48 + n) else Char.ofNat (87 + n)

/-- Escape one byte the way `repr(bytes)` / `str(bytes)` does in Python 3,
given the quote character chosen for the literal. -/
def byteReprChars (quote : Nat) (b : Nat) : List Char :=
  if b == 92 then [Char.ofNat 92, Char.ofNat 92]
  else if b == quote then [Char.ofNat 92, Char.ofNat quote]
  else if b == 9 then [Char.ofNat 92, Char.ofNat 116]
  else if b == 10 then [Char.ofNat 92, Char.ofNat 110]
  else if b == 13 then [Char.ofNat 92, Char.ofNat 114]
  else if b < 32 || 127 ≤ b then
    [Char.ofNat 92, Char.ofNat 120, hexDigitChar (b / 16), hexDigitChar (b % 16)]
  else [Char.ofNat b]

/-- Python 3 `str(b)` for `b : bytes`: the `b'...'` repr. A single quote is
used unless the data contains `'` but no `"`. -/
def pyStrOfBytes (bs : List Nat) : String :=
  let quote : Nat := if bs.contains 39 && !(bs.contains 34) then 34 else 39
  ⟨Char.ofNat 98 :: Char.ofNat quote :: (bs.flatMap (byteReprChars quote) ++ [Char.ofNat quote])⟩

/-- Whether `t` is a prefix of `s` (Boolean, structural). -/
def isPrefixList : List Char → List Char → Bool
  | [], _ => true
  | _ :: _, [] => false
  | a :: as, b :: bs => a == b && isPrefixList as bs

/-- Helper for `strFind`: first index `≥ k` (counting from the original
start) at which `t` occurs in the remaining text `s`, `-1` when absent. -/
def findFrom (t : List Char) : List Char → Nat → Int
  | [], k => if isPrefixList t [] then Int.ofNat k else -1
  | c :: s2, k =>
    if isPrefixList t (c :: s2) then Int.ofNat k else findFrom t s2 (k + 1)

/-- Python `s.find(t)`: offset of the first occurrence of `t` in `s`,
`-1` when `t` does not occur. -/
def strFind (s t : List Char) : Int := findFrom t s 0

/-! ### MD5 (`hashlib.md5(...).hexdigest()`), over `Nat` mod `2^32` -/

/-- The 64 MD5 round constants `K[i] = floor(2^32 * abs(sin(i + 1)))`. -/
def md5K : List Nat :=
  [0xd76aa478, 0xe8c7b756, 0x242070db, 0xc1bdceee,
   0xf57c0faf, 0x4787c62a, 0xa8304613, 0xfd469501,
   0x698098d8, 0x8b44f7af, 0xffff5bb1, 0x895cd7be,
   0x6b901122, 0xfd987193, 0xa679438e, 0x49b40821,
   0xf61e2562, 0xc040b340, 0x265e5a51, 0xe9b6c7aa,
   0xd62f105d, 0x02441453, 0xd8a1e681, 0xe7d3fbc8,
   0x21e1cde6, 0xc33707d6, 0xf4d50d87, 0x455a14ed,
   0xa9e3e905, 0xfcefa3f8, 0x676f02d9, 0x8d2a4c8a,
   0xfffa3942, 0x8771f681, 0x6d9d6122, 0xfde5380c,
   0xa4beea44, 0x4bdecfa9, 0xf6bb4b60, 0xbebfbc70,
   0x289b7ec6, 0xeaa127fa, 0xd4ef3085, 0x04881d05,
   0xd9d4d039, 0xe6db99e5, 0x1fa27cf8, 0xc4ac5665,
   0xf4292244, 0x432aff97, 0xab9423a7, 0xfc93a039,
   0x655b59c3, 0x8f0ccc92, 0xffeff47d, 0x85845dd1,
   0x6fa87e4f, 0xfe2ce6e0, 0xa3014314, 0x4e0811a1,
   0xf7537e82, 0xbd3af235, 0x2ad7d2bb, 0xeb86d391]

/-- The 64 MD5 per-round left-rotation amounts. -/
def md5S : List Nat :=
  [7, 12, 17, 22, 7, 12, 17, 22, 7, 12, 17, 22, 7, 12, 17, 22,
   5, 9, 14, 20, 5, 9, 14, 20, 5, 9, 14, 20, 5, 9, 14, 20,
   4, 11, 16, 23, 4, 11, 16, 23, 4, 11, 16, 23, 4, 11, 16, 23,
   6, 10, 15, 21, 6, 10, 15, 21, 6, 10, 15, 21, 6, 10, 15, 21]

/-- Left rotation of a 32-bit word. -/
def rotl32 (x s : Nat) : Nat := ((x <<< s) ||| (x >>> (32 - s))) % 4294967296

/-- MD5 nonlinear round function for round `i`. -/
def md5F (i b c d : Nat) : Nat :=
  if i < 16 then (b &&& c) ||| ((b ^^^ 0xffffffff) &&& d)
  else if i < 32 then (d &&& b) ||| ((d ^^^ 0xffffffff) &&& c)
  else if i < 48 then b ^^^ c ^^^ d
  else c ^^^ (b ||| (d ^^^ 0xffffffff))

/-- MD5 message-word index for round `i`. -/
def md5G (i : Nat) : Nat :=
  if i < 16 then i
  else if i < 32 then (5 * i + 1) % 16
  else if i < 48 then (3 * i + 5) % 16
  else (7 * i) % 16

/-- The 32-bit little-endian word `M[g]` of a 64-byte block. -/
def md5Word (block : List Nat) (g : Nat) : Nat :=
  block.getD (4 * g) 0 + 256 * block.getD (4 * g + 1) 0 +
    65536 * block.getD (4 * g + 2) 0 + 16777216 * block.getD (4 * g + 3) 0

/-- One MD5 round on the state `(a, b, c, d)`. -/
def md5Round (block : List Nat) (st : Nat × Nat × Nat × Nat) (i : Nat) :
    Nat × Nat × Nat × Nat :=
  let (a, b, c, d) := st
  let f := (md5F i b c d + a + md5K.getD i 0 + md5Word block (md5G i)) % 4294967296
  (d, (b + rotl32 f (md5S.getD i 0)) % 4294967296, b, c)

/-- Process one 64-byte block: 64 rounds, then add into the running state. -/
def md5Compress (st : Nat × Nat × Nat × Nat) (block : List Nat) :
    Nat × Nat × Nat × Nat :=
  let r := (List.range 64).foldl (md5Round block) st
  ((st.1 + r.1) % 4294967296, (st.2.1 + r.2.1) % 4294967296,
   (st.2.2.1 + r.2.2.1) % 4294967296, (st.2.2.2 + r.2.2.2) % 4294967296)

/-- MD5 padding: `0x80`, zeros to 56 mod 64, then the 64-bit little-endian
bit length. -/
def md5Pad (msg : List Nat) : List Nat :=
  let len := msg.length
  let zeros := (119 - (len % 64)) % 64
  let bitLen := (8 * len) % 18446744073709551616
  msg ++ [128] ++ List.replicate zeros 0 ++
    (List.range 8).map (fun i => (bitLen >>> (8 * i)) % 256)

/-- Split a byte list into 64-byte chunks. The first argument is fuel,
always instantiated with the list's length, which bounds the number of
chunks; recursion on it keeps the definition kernel-reducible. -/
def chunksAux : Nat → List Nat → List (List Nat)
  | 0, _ => []
  | _, [] => []
  | fuel + 1, c :: l => (c :: l).take 64 :: chunksAux fuel ((c :: l).drop 64)

/-- Split a byte list into 64-byte chunks. -/
def chunks64 (l : List Nat) : List (List Nat) := chunksAux l.length l

/-- The four bytes of a 32-bit word, little-endian. -/
def le4 (x : Nat) : List Nat :=
  [x % 256, (x >>> 8) % 256, (x >>> 16) % 256, (x >>> 24) % 256]

/-- The 16-byte MD5 digest of a byte string. -/
def md5Digest (msg : List Nat) : List Nat :=
  let st := (chunks64 (md5Pad msg)).foldl md5Compress
    (0x67452301, 0xefcdab89, 0x98badcfe, 0x10325476)
  le4 st.1 ++ le4 st.2.1 ++ le4 st.2.2.1 ++ le4 st.2.2.2

/-- Two lowercase hex digits of a byte. -/
def byteToHex (b : Nat) : List Char := [hexDigitChar (b / 16), hexDigitChar (b % 16)]

/-- Python `hashlib.md5(bs).hexdigest()`. -/
def md5HexOfBytes (bs : List Nat) : String := ⟨(md5Digest bs).flatMap byteToHex⟩

/-! ### `zr_eeoc_selenium.py`: job posts, identity hash, dedup, CSV -/

/-- The ZipRecruiter job record (`collections.namedtuple` over
`JOB_POST_FIELD_NAMES`). -/
structure JobPost where
  job_title : String
  job_organization_name : String
  job_snippet_text : String
  source_url : String
  job_search_term : String
  location_search_term : String
  full_url : String
deriving DecidableEq, Repr

/-- Method `JobPost.generate_job_id`: the MD5 hex digest of
`'{}_{}_{}'.format(job_title, job_organization_name, location_search_term)`
encoded as UTF-8. -/
def JobPost.generate_job_id (self : JobPost) : String :=
  let job_key := self.job_title ++ "_" ++ self.job_organization_name ++ "_" ++
    self.location_search_term
  md5HexOfBytes (utf8Encode job_key)

/-- The dict produced by `JobPost.to_dict_with_id`: the seven record fields
plus `job_id`, i.e. one CSV data row of `write_csv` (columns
`JOB_POST_FIELD_NAMES_WITH_ID`). -/
structure ZrCsvRow where
  job_id : String
  job_title : String
  job_organization_name : String
  job_snippet_text : String
  source_url : String
  job_search_term : String
  location_search_term : String
  full_url : String
deriving DecidableEq, Repr

/-- Method `JobPost.to_dict_with_id`: `self._asdict()` plus the generated id. -/
def JobPost.to_dict_with_id (self : JobPost) : ZrCsvRow :=
  { job_id := self.generate_job_id
    job_title := self.job_title
    job_organization_name := self.job_organization_name
    job_snippet_text := self.job_snippet_text
    source_url := self.source_url
    job_search_term := self.job_search_term
    location_search_term := self.location_search_term
    full_url := self.full_url }

/-- Function `write_csv`: writes a header row and then `row.to_dict_with_id()` for
each element of `dataset`, in order, with no skipping. The model returns
the emitted data rows (the on-disk header and column ordering are fixed by
the `column_names` argument, `JOB_POST_FIELD_NAMES_WITH_ID` at the call
site, and carry no further logic). -/
def write_csv (dataset : List JobPost) : List ZrCsvRow :=
  dataset.map JobPost.to_dict_with_id

/-- The loop of `dedupe_jobs`. Here `id_to_job` is an insertion-ordered Python dict;
`seen` here is its key set and the returned list its values in insertion
order. -/
def dedupeJobsAux : List JobPost → List String → List JobPost
  | [], _ => []
  | job :: rest, seen =>
    let job_id := job.generate_job_id
    if job_id ∈ seen then dedupeJobsAux rest seen
    else job :: dedupeJobsAux rest (job_id :: seen)

/-- Function `dedupe_jobs`: keep the first-seen job for each `generate_job_id`
value, in first-seen order (`id_to_job.values()` of an insertion-ordered
dict). -/
def dedupe_jobs (list_of_jobs : List JobPost) : List JobPost :=
  dedupeJobsAux list_of_jobs []

/-- A ZipRecruiter result block as `process_block` queries it: each field
is the corresponding `block.find(...)` result, `none` when the element is
absent (BeautifulSoup returns `None`). -/
structure Block where
  titleSpan : Option String
  orgLink : Option String
  snippet : Option String
  jobLinkAttrs : Option (List (String × String))
deriving DecidableEq, Repr

/-- Attribute `.text` on a `find` result: `AttributeError` when the result is
`None`. -/
def pyText : Option String → Except PyErr String
  | none => Except.error PyErr.attributeError
  | some s => Except.ok s

/-- Attribute `.attrs` on a `find` result: `AttributeError` when the result is
`None`. -/
def pyAttrs : Option (List (String × String)) → Except PyErr (List (String × String))
  | none => Except.error PyErr.attributeError
  | some a => Except.ok a

/-- Python `d[k]` on a dict: `KeyError` when absent. -/
def pyDictGet (d : List (String × String)) (k : String) : Except PyErr String :=
  match d.find? (fun e => e.1 == k) with
  | some e => Except.ok e.2
  | none => Except.error PyErr.keyError

/-- Function `process_block`: pull title, organization, snippet and job link out of
one content block. Each access `block.find(...).text` (and
`.attrs['href']`) is unguarded in the source, so an absent element raises
rather than soft-failing. The snippet is `.encode('ascii', 'ignore')`-ed
and stripped; Python keeps it as `bytes`, modelled here by its (ASCII)
characters. -/
def process_block (block : Block)
    (source_url job_search_term location_search_term : String) :
    Except PyErr JobPost := do
  let job_title ← pyText block.titleSpan
  let job_org_name ← pyText block.orgLink
  let snippet ← pyText block.snippet
  let snippet_text : String := ⟨pyStrip (snippet.data.filter (fun c => c.toNat < 128))⟩
  let attrs ← pyAttrs block.jobLinkAttrs
  let full_job_url ← pyDictGet attrs "href"
  Except.ok
    { job_title := job_title
      job_organization_name := job_org_name
      job_snippet_text := snippet_text
      source_url := source_url
      job_search_term := job_search_term
      location_search_term := location_search_term
      full_url := full_job_url }

/-! ### `craigslist_eeoc.py`: fetch cache, term flagging, CSV -/

/-- One result dict from `CraigslistJobs.get_results` as `process_posting`
reads it (`post['name']`, `post['url']`, `post['datetime']`). -/
structure Post where
  name : String
  url : String
  datetime : String
deriving DecidableEq, Repr

/-- Constructor `FlaggedPost.__init__`: stores its six arguments. -/
structure FlaggedPost where
  url : String
  job_name : String
  job_body : String
  post_time : String
  flagged_terms : List String
  flagged_section_indices : List Nat
deriving DecidableEq, Repr

/-- The body of `FlaggedPost.serialize`'s loop for one index `i`:
`flagged_section_indices[i]`, the 80-character window of `job_body` around
it encoded `('ascii', 'ignore')`, and the two formatted lines. Formatting
a `bytes` value embeds its `b'...'` repr. -/
def serializeStep (self : FlaggedPost) (serialized : String) (i : Nat) :
    Except PyErr String :=
  match pyListGet self.flagged_section_indices i with
  | Except.error e => Except.error e
  | Except.ok flagged_index =>
    let surrounding_context := encodeAsciiIgnore
      (pySlice self.job_body.data ((flagged_index : Int) - 40) ((flagged_index : Int) + 40))
    match pyListGet self.flagged_terms i with
    | Except.error e => Except.error e
    | Except.ok term =>
      Except.ok (serialized ++ "Flagged term: \"" ++ term ++ "\"\n" ++
        "Context of term: \"" ++ pyStrOfBytes surrounding_context ++ "\"\n\n")

/-- The `for i in range(...)` loop of `serialize`, with Python exception
propagation made explicit. -/
def serializeLoop (self : FlaggedPost) : List Nat → String → Except PyErr String
  | [], serialized => Except.ok serialized
  | i :: rest, serialized =>
    match serializeStep self serialized i with
    | Except.error e => Except.error e
    | Except.ok s2 => serializeLoop self rest s2

/-- Method `FlaggedPost.serialize`: header lines, then the loop over
`range(len(flagged_terms))`. -/
def FlaggedPost.serialize (self : FlaggedPost) : Except PyErr String :=
  let s0 := "Job posted at " ++ self.post_time ++ "\n" ++ self.url ++ "\n" ++
    self.job_name ++ "\n"
  serializeLoop self (List.range self.flagged_terms.length) s0

/-- A data row of `write_posts_with_metadata`'s CSV: the dict from
`FlaggedPost.to_dict_for_csv` plus `time_accessed`. -/
structure ClCsvRow where
  url : String
  job_name : String
  job_body : String
  post_time : String
  flagged_terms : String
  time_accessed : String
deriving DecidableEq, Repr

/-- The keys of `FlaggedPost.to_dict_for_csv()`, in dict insertion order. -/
def flaggedPostCsvKeys : List String :=
  ["url", "job_name", "job_body", "post_time", "flagged_terms"]

/-- Method `FlaggedPost.to_dict_for_csv` (with the run's `time_accessed` stamp
merged in, as `write_posts_with_metadata` does before writing):
`flagged_terms` joined with `','`. -/
def FlaggedPost.to_dict_for_csv (self : FlaggedPost) (time_accessed : String) :
    ClCsvRow :=
  { url := self.url
    job_name := self.job_name
    job_body := self.job_body
    post_time := self.post_time
    flagged_terms := String.intercalate "," self.flagged_terms
    time_accessed := time_accessed }

/-- The row loop of `write_posts_with_metadata`: a post whose `url` is in
`post_urls_written` is skipped, otherwise its row is written and its URL
recorded. -/
def writePostsRows (datetime_accessed : String) :
    List FlaggedPost → List String → List ClCsvRow
  | [], _ => []
  | post :: rest, post_urls_written =>
    if post.url ∈ post_urls_written then
      writePostsRows datetime_accessed rest post_urls_written
    else
      post.to_dict_for_csv datetime_accessed ::
        writePostsRows datetime_accessed rest (post.url :: post_urls_written)

/-- Function `write_posts_with_metadata`: `post_objs[0]` is read to build
`column_names` before the output file is opened, so an empty input raises
`IndexError` and no file is created; otherwise the header (column names)
and the deduplicated-by-URL rows are written. -/
def write_posts_with_metadata (datetime_accessed : String)
    (post_objs : List FlaggedPost) : Except PyErr (List String × List ClCsvRow) :=
  match post_objs with
  | [] => Except.error PyErr.indexError
  | _ :: _ =>
    let column_names := flaggedPostCsvKeys ++ ["time_accessed"]
    Except.ok (column_names, writePostsRows datetime_accessed post_objs [])

/-- Raw page content as `process_posting` sees it: `resp.content` is
`bytes`, while `read_cl_post_from_file` yields `str`. -/
inductive RawContent where
  | bytes (bs : List Nat)
  | text (s : String)
deriving DecidableEq, Repr

/-- The byte content a `RawContent` value stands for (a `str` read back
from the cache file stands for its UTF-8 bytes on disk). -/
def RawContent.asBytes : RawContent → List Nat
  | RawContent.bytes bs => bs
  | RawContent.text s => utf8Encode s

/-- The cache directory: file path to file text, written through
`write_cl_post_to_file` (mode `'w'`, so text). -/
abbrev Cache := List (String × String)

/-- Lookup modelling `os.path.isfile` followed by `read_cl_post_from_file`. -/
def cacheLookup (cache : Cache) (path : String) : Option String :=
  (cache.find? (fun e => e.1 == path)).map (fun e => e.2)

/-- Insertion modelling `write_cl_post_to_file path (str content)`. -/
def cacheInsert (cache : Cache) (path content : String) : Cache :=
  (path, content) :: cache

/-- Outcome of the cache/fetch prologue of `process_posting` (lines
116-127): the raw content it proceeds to parse, the cache directory
afterwards, and how many HTTP GETs were issued. -/
structure FetchResult where
  raw : RawContent
  cache : Cache
  networkRequests : Nat
deriving Repr

/-- The cache/fetch prologue of `process_posting`: hash the URL, read the
file if it exists (and the cache is not ignored), else GET the URL and
write `str(resp.content)` — the Python 3 `b'...'` repr of the body — to
the cache file. `net` models `requests.get(...).content`. -/
def fetch_raw_content (net : String → List Nat) (post_url local_base_path : String)
    (ignore_cache : Bool) (cache : Cache) : FetchResult :=
  let hashed_url := md5HexOfBytes (utf8Encode post_url)
  let cached_path := local_base_path ++ "/" ++ hashed_url
  match cacheLookup cache cached_path, ignore_cache with
  | some content, false => ⟨RawContent.text content, cache, 0⟩
  | _, _ =>
    let body := net post_url
    ⟨RawContent.bytes body, cacheInsert cache cached_path (pyStrOfBytes body), 1⟩

/-- The term loop of `process_posting` (lines 138-146): for each term of
`dubious_terms` in iteration order, `body_text.find(term)`; terms found
(index `!= -1`) are appended together with their offset. -/
def flagTermsLoop (body_text : List Char) : List String → List String × List Nat
  | [] => ([], [])
  | term :: rest =>
    let starting_index := strFind body_text term.data
    let r := flagTermsLoop body_text rest
    if starting_index ≠ -1 then (term :: r.1, starting_index.toNat :: r.2) else r

/-- Function `process_posting` from the parse on (lines 130-154): `content_text` is
`content.text` for the `section` with id `postingbody`, `none` when
BeautifulSoup finds no such section. On `none` the function returns
`None`; otherwise the lower-cased body is scanned and a `FlaggedPost` is
returned exactly when at least one term was flagged. -/
def process_posting_parsed (post : Post) (dubious_terms : List String)
    (content_text : Option String) : Option FlaggedPost :=
  match content_text with
  | none => none
  | some t =>
    let body_text := pyLower t
    let r := flagTermsLoop body_text.data dubious_terms
    if 0 < r.1.length then
      some ⟨post.url, post.name, body_text, post.datetime, r.1, r.2⟩
    else none

/-- All of `process_posting`: fetch (through the cache), parse (`parse`
stands for BeautifulSoup's `postingbody` extraction, a black box over the
raw content), flag. Returns the optional flagged post, the cache
afterwards, and the number of HTTP GETs issued. -/
def process_posting (net : String → List Nat) (parse : RawContent → Option String)
    (post : Post) (dubious_terms : List String) (local_base_path : String)
    (ignore_cache : Bool) (cache : Cache) :
    Option FlaggedPost × Cache × Nat :=
  let fr := fetch_raw_content net post.url local_base_path ignore_cache cache
  (process_posting_parsed post dubious_terms (parse fr.raw), fr.cache, fr.networkRequests)

/-- The accumulation loop of `main` (lines 221-226): results of
`process_posting` that are not `None` are appended to `dubious_posts`;
`None` results are dropped. -/
def collectDubious (proc : Post → Option FlaggedPost) (jobs : List Post) :
    List FlaggedPost :=
  jobs.filterMap proc

/-! ### Lemmas about `dedupe_jobs` -/

theorem dedupeJobsAux_sublist (l : List JobPost) :
    ∀ seen, (dedupeJobsAux l seen).Sublist l := by
  induction l with
  | nil => intro seen; simp [dedupeJobsAux]
  | cons job rest ih =>
    intro seen
    simp only [dedupeJobsAux]
    split
    · exact (ih seen).cons job
    · exact (ih _).cons₂ job

theorem dedupeJobsAux_not_seen (l : List JobPost) :
    ∀ seen j, j ∈ dedupeJobsAux l seen → j.generate_job_id ∉ seen := by
  induction l with
  | nil => intro seen j hj; simp [dedupeJobsAux] at hj
  | cons job rest ih =>
    intro seen j hj
    simp only [dedupeJobsAux] at hj
    split at hj
    · exact ih seen j hj
    · rcases List.mem_cons.mp hj with rfl | h
      · assumption
      · intro hc
        exact ih _ j h (List.mem_cons_of_mem _ hc)

theorem dedupeJobsAux_ids_nodup (l : List JobPost) :
    ∀ seen, ((dedupeJobsAux l seen).map JobPost.generate_job_id).Nodup := by
  induction l with
  | nil => intro seen; simp [dedupeJobsAux]
  | cons job rest ih =>
    intro seen
    simp only [dedupeJobsAux]
    split
    · exact ih seen
    · simp only [List.map_cons, List.nodup_cons]
      refine ⟨?_, ih _⟩
      intro hmem
      obtain ⟨x, hx, hxe⟩ := List.mem_map.mp hmem
      exact dedupeJobsAux_not_seen rest _ x hx (by rw [hxe]; exact List.mem_cons_self _ _)

theorem dedupeJobsAux_covers (l : List JobPost) :
    ∀ seen j, j ∈ l → j.generate_job_id ∈ seen ∨
      j.generate_job_id ∈ (dedupeJobsAux l seen).map JobPost.generate_job_id := by
  induction l with
  | nil => intro seen j hj; simp at hj
  | cons job rest ih =>
    intro seen j hj
    simp only [dedupeJobsAux]
    by_cases h : job.generate_job_id ∈ seen
    · rw [if_pos h]
      rcases List.mem_cons.mp hj with rfl | hjr
      · exact Or.inl h
      · exact ih seen j hjr
    · rw [if_neg h]
      rcases List.mem_cons.mp hj with rfl | hjr
      · exact Or.inr (by simp)
      · rcases ih (job.generate_job_id :: seen) j hjr with hs | hs
        · rcases List.mem_cons.mp hs with he | hs2
          · exact Or.inr (by simp [he])
          · exact Or.inl hs2
        · exact Or.inr (by simp [hs])

theorem dedupeJobsAux_first_seen (l : List JobPost) :
    ∀ seen x, x ∈ dedupeJobsAux l seen →
      l.find? (fun y => y.generate_job_id == x.generate_job_id) = some x := by
  induction l with
  | nil => intro seen x hx; simp [dedupeJobsAux] at hx
  | cons job rest ih =>
    intro seen x hx
    simp only [dedupeJobsAux] at hx
    by_cases h : job.generate_job_id ∈ seen
    · rw [if_pos h] at hx
      have hxs := dedupeJobsAux_not_seen rest seen x hx
      have hne : (job.generate_job_id == x.generate_job_id) = false := by
        rw [beq_eq_false_iff_ne]
        intro he
        exact hxs (he ▸ h)
      simp only [List.find?, hne]
      exact ih seen x hx
    · rw [if_neg h] at hx
      rcases List.mem_cons.mp hx with rfl | hxr
      · simp only [List.find?, beq_self_eq_true]
      · have hxs := dedupeJobsAux_not_seen rest _ x hxr
        have hne : (job.generate_job_id == x.generate_job_id) = false := by
          rw [beq_eq_false_iff_ne]
          intro he
          exact hxs (by rw [← he]; exact List.mem_cons_self _ _)
        simp only [List.find?, hne]
        exact ih _ x hxr

theorem dedupeJobsAux_of_nodup (l : List JobPost) :
    ∀ seen, (l.map JobPost.generate_job_id).Nodup →
      (∀ j ∈ l, j.generate_job_id ∉ seen) → dedupeJobsAux l seen = l := by
  induction l with
  | nil => intro seen _ _; simp [dedupeJobsAux]
  | cons job rest ih =>
    intro seen hnd hseen
    rw [List.map_cons, List.nodup_cons] at hnd
    simp only [dedupeJobsAux]
    rw [if_neg (hseen job (List.mem_cons_self _ _))]
    congr 1
    apply ih _ hnd.2
    intro j hj hc
    rcases List.mem_cons.mp hc with he | hs
    · exact hnd.1 (he ▸ List.mem_map_of_mem JobPost.generate_job_id hj)
    · exact hseen j (List.mem_cons_of_mem _ hj) hs

/-- A concrete job post used to instantiate the universally quantified
theorems. -/
def samplePost : JobPost :=
  { job_title := "Cashier"
    job_organization_name := "Acme"
    job_snippet_text := "must pass a background check"
    source_url := "https://www.ziprecruiter.com/candidate/search"
    job_search_term := "felony"
    location_search_term := "illinois"
    full_url := "https://www.ziprecruiter.com/job/a" }

/-- Like `samplePost` but with a different URL and snippet; the identity
fields (title, organization, location) agree. -/
def samplePostB : JobPost :=
  { job_title := "Cashier"
    job_organization_name := "Acme"
    job_snippet_text := "clean background required"
    source_url := "https://www.ziprecruiter.com/candidate/search2"
    job_search_term := "conviction"
    location_search_term := "illinois"
    full_url := "https://www.ziprecruiter.com/job/b" }

/-- C1: for every finite list of `JobPost`s, `dedupe_jobs` keeps elements
of the input in input (first-seen) order; its size is at most the input
size; no two retained postings share a `generate_job_id`; every input
identity hash is represented; each retained posting is the first element
of the input with its identity hash; and when all input identity hashes
are distinct the output equals the input. -/
theorem dedupe_jobs_spec (l : List JobPost) :
    (dedupe_jobs l).Sublist l ∧
    (dedupe_jobs l).length ≤ l.length ∧
    ((dedupe_jobs l).map JobPost.generate_job_id).Nodup ∧
    (∀ j ∈ l, j.generate_job_id ∈ (dedupe_jobs l).map JobPost.generate_job_id) ∧
    (∀ x ∈ dedupe_jobs l,
      l.find? (fun y => y.generate_job_id == x.generate_job_id) = some x) ∧
    ((l.map JobPost.generate_job_id).Nodup → dedupe_jobs l = l) := by
  refine ⟨dedupeJobsAux_sublist l [], (dedupeJobsAux_sublist l []).length_le,
    dedupeJobsAux_ids_nodup l [], ?_, dedupeJobsAux_first_seen l [], ?_⟩
  · intro j hj
    rcases dedupeJobsAux_covers l [] j hj with hs | hs
    · simp at hs
    · exact hs
  · intro hnd
    exact dedupeJobsAux_of_nodup l [] hnd (by simp)

/-- Witness for C1 at a concrete singleton input, discharging the
all-distinct-hashes hypothesis of the final conjunct. -/
theorem dedupe_jobs_spec_witness :
    dedupe_jobs [samplePost] = [samplePost] ∧
      (dedupe_jobs [samplePost]).Sublist [samplePost] :=
  ⟨(dedupe_jobs_spec [samplePost]).2.2.2.2.2 (by simp),
    (dedupe_jobs_spec [samplePost]).1⟩

/-- C7: `generate_job_id` depends only on the title, organization name and
location search term; two postings agreeing on these three fields hash
identically whatever their other fields, and `dedupe_jobs` on the pair
keeps only the first. -/
theorem generate_job_id_key_only (j1 j2 : JobPost)
    (ht : j1.job_title = j2.job_title)
    (ho : j1.job_organization_name = j2.job_organization_name)
    (hl : j1.location_search_term = j2.location_search_term) :
    j1.generate_job_id = j2.generate_job_id ∧ dedupe_jobs [j1, j2] = [j1] := by
  have hid : j1.generate_job_id = j2.generate_job_id := by
    simp only [JobPost.generate_job_id, ht, ho, hl]
  refine ⟨hid, ?_⟩
  have hmem : j2.generate_job_id ∈ [j1.generate_job_id] := by
    rw [hid]
    exact List.mem_singleton_self _
  simp [dedupe_jobs, dedupeJobsAux, hmem, hid]

/-- Witness for C7: `samplePost` and `samplePostB` share title,
organization and location but differ in URL; the pair dedupes to the
first. -/
theorem generate_job_id_key_only_witness :
    samplePost.generate_job_id = samplePostB.generate_job_id ∧
      dedupe_jobs [samplePost, samplePostB] = [samplePost] :=
  generate_job_id_key_only samplePost samplePostB rfl rfl rfl

/-! ### Lemmas about `strFind` and the term-flagging loop -/

theorem findFrom_cases (t : List Char) :
    ∀ (s : List Char) (k : Nat),
      findFrom t s k = -1 ∨ ∃ j, findFrom t s k = Int.ofNat j := by
  intro s
  induction s with
  | nil =>
    intro k
    simp only [findFrom]
    split
    · exact Or.inr ⟨k, rfl⟩
    · exact Or.inl rfl
  | cons c s2 ih =>
    intro k
    simp only [findFrom]
    split
    · exact Or.inr ⟨k, rfl⟩
    · exact ih (k + 1)

theorem findFrom_ofNat_occurs (t : List Char) :
    ∀ (s : List Char) (k j : Nat), findFrom t s k = Int.ofNat j →
      k ≤ j ∧ isPrefixList t (s.drop (j - k)) = true := by
  intro s
  induction s with
  | nil =>
    intro k j h
    simp only [findFrom] at h
    split at h
    · have hkj : k = j := Int.ofNat.inj h
      subst hkj
      simpa [List.drop] using ‹isPrefixList t [] = true›
    · exact absurd h (by simp)
  | cons c s2 ih =>
    intro k j h
    simp only [findFrom] at h
    split at h
    · have hkj : k = j := Int.ofNat.inj h
      subst hkj
      simp only [Nat.sub_self, List.drop]
      exact ⟨Nat.le_refl _, ‹isPrefixList t (c :: s2) = true›⟩
    · obtain ⟨hle, hpre⟩ := ih (k + 1) j h
      refine ⟨Nat.le_of_succ_le hle, ?_⟩
      have hd : j - k = (j - (k + 1)) + 1 := by omega
      rw [hd, List.drop_succ_cons]
      exact hpre

theorem strFind_ofNat_occurs (s t : List Char) (j : Nat)
    (h : strFind s t = Int.ofNat j) : isPrefixList t (s.drop j) = true := by
  have := findFrom_ofNat_occurs t s 0 j h
  simpa using this.2

theorem flagTermsLoop_all_missing (body : List Char) :
    ∀ terms : List String, (∀ t ∈ terms, strFind body t.data = -1) →
      flagTermsLoop body terms = ([], []) := by
  intro terms
  induction terms with
  | nil => intro _; rfl
  | cons t rest ih =>
    intro h
    simp only [flagTermsLoop]
    rw [if_neg (by simp [h t (List.mem_cons_self t rest)])]
    exact ih (fun x hx => h x (List.mem_cons_of_mem _ hx))

theorem flagTermsLoop_single (body : List Char) (T : String) (k : Nat) :
    ∀ terms : List String, terms.Nodup → T ∈ terms →
      strFind body T.data = Int.ofNat k →
      (∀ t ∈ terms, t ≠ T → strFind body t.data = -1) →
      flagTermsLoop body terms = ([T], [k]) := by
  intro terms
  induction terms with
  | nil => intro _ hT; simp at hT
  | cons t rest ih =>
    intro hnd hT hfind hothers
    have hnd2 := List.nodup_cons.mp hnd
    simp only [flagTermsLoop]
    rcases List.mem_cons.mp hT with rfl | hTr
    · have hrest : flagTermsLoop body rest = ([], []) := by
        apply flagTermsLoop_all_missing
        intro x hx
        refine hothers x (List.mem_cons_of_mem _ hx) ?_
        intro he
        exact hnd2.1 (he ▸ hx)
      rw [if_pos (by rw [hfind]; intro hc; simp only [Int.ofNat_eq_coe] at hc; omega)]
      rw [hfind, hrest]
      simp
    · have htm : strFind body t.data = -1 := by
        refine hothers t (List.mem_cons_self _ _) ?_
        intro he
        exact hnd2.1 (he ▸ hTr)
      rw [if_neg (by simp [htm])]
      exact ih hnd2.2 hTr hfind
        (fun x hx hxne => hothers x (List.mem_cons_of_mem _ hx) hxne)

theorem flagTermsLoop_pairs (body : List Char) :
    ∀ terms : List String,
      (flagTermsLoop body terms).1.length = (flagTermsLoop body terms).2.length ∧
      ∀ p ∈ (flagTermsLoop body terms).1.zip (flagTermsLoop body terms).2,
        strFind body p.1.data = Int.ofNat p.2 := by
  intro terms
  induction terms with
  | nil => simp [flagTermsLoop]
  | cons t rest ih =>
    simp only [flagTermsLoop]
    split
    · next hne =>
      constructor
      · simpa using ih.1
      · intro p hp
        rw [List.zip_cons_cons] at hp
        rcases List.mem_cons.mp hp with rfl | hp2
        · rcases findFrom_cases t.data body 0 with hc | ⟨j, hj⟩
          · exact absurd hc hne
          · simp only [strFind]
            rw [hj]
            simp
        · exact ih.2 p hp2
    · exact ih

/-- A concrete Craigslist result used to instantiate the theorems. -/
def samplePostCl : Post :=
  { name := "Cashier wanted"
    url := "https://chicago.craigslist.org/job/1"
    datetime := "2020-07-06 12:00" }

/-- C3: when the lower-cased body contains exactly one configured term `T`,
first occurring at offset `k`, and no other configured term, the flagging
loop records exactly the pair `(T, k)` and `process_posting` returns a
`FlaggedPost` carrying exactly that pair. (`dubious_terms` models a Python
set, hence the no-duplicates hypothesis.) -/
theorem process_posting_single_term (post : Post) (dubious_terms : List String)
    (text T : String) (k : Nat)
    (hnd : dubious_terms.Nodup) (hT : T ∈ dubious_terms)
    (hfind : strFind (pyLower text).data T.data = Int.ofNat k)
    (hothers : ∀ t ∈ dubious_terms, t ≠ T → strFind (pyLower text).data t.data = -1) :
    flagTermsLoop (pyLower text).data dubious_terms = ([T], [k]) ∧
    process_posting_parsed post dubious_terms (some text) =
      some { url := post.url, job_name := post.name, job_body := pyLower text,
             post_time := post.datetime, flagged_terms := [T],
             flagged_section_indices := [k] } := by
  have hf := flagTermsLoop_single (pyLower text).data T k dubious_terms hnd hT hfind hothers
  refine ⟨hf, ?_⟩
  simp [process_posting_parsed, hf]

/-- Witness for C3: body `"We check FELONIES"` against the term set
`{"felonies"}`; the term is flagged at character offset 9 of the
lower-cased body. -/
theorem process_posting_single_term_witness :
    flagTermsLoop (pyLower "We check FELONIES").data ["felonies"] =
      ([("felonies" : String)], [9]) ∧
    process_posting_parsed samplePostCl ["felonies"] (some "We check FELONIES") =
      some { url := samplePostCl.url, job_name := samplePostCl.name,
             job_body := pyLower "We check FELONIES",
             post_time := samplePostCl.datetime,
             flagged_terms := ["felonies"], flagged_section_indices := [9] } :=
  process_posting_single_term samplePostCl ["felonies"] "We check FELONIES" "felonies" 9
    (by decide) (by decide) (by decide) (by decide)

/-- C6: when the lower-cased body contains none of the configured terms,
the flagging loop records nothing, `process_posting` returns `None`, and
the accumulation loop of `main` collects nothing from such postings, so
they never reach the deduplicator or the CSV writer. -/
theorem process_posting_no_flag (post : Post) (dubious_terms : List String)
    (text : String)
    (h : ∀ t ∈ dubious_terms, strFind (pyLower text).data t.data = -1) :
    flagTermsLoop (pyLower text).data dubious_terms = ([], []) ∧
    process_posting_parsed post dubious_terms (some text) = none ∧
    ∀ jobs : List Post,
      collectDubious (fun q => process_posting_parsed q dubious_terms (some text))
        jobs = [] := by
  have hf := flagTermsLoop_all_missing (pyLower text).data dubious_terms h
  have hnone : ∀ q : Post, process_posting_parsed q dubious_terms (some text) = none := by
    intro q
    simp [process_posting_parsed, hf]
  refine ⟨hf, hnone post, ?_⟩
  intro jobs
  simp only [collectDubious]
  exact List.filterMap_eq_nil_iff.mpr (fun q _ => hnone q)

/-- Witness for C6: body `"All Good Here"` against the term set
`{"felony"}`. -/
theorem process_posting_no_flag_witness :
    process_posting_parsed samplePostCl ["felony"] (some "All Good Here") = none :=
  (process_posting_no_flag samplePostCl ["felony"] "All Good Here" (by decide)).2.1

/-- C9: every `FlaggedPost` built by `process_posting` has as many flagged
terms as flagged indices, at least one of them, and pairs each term
positionally with the offset of its first occurrence in the stored
lower-cased body — in particular each recorded index points at an actual
occurrence of its term. -/
theorem flagged_post_invariant (post : Post) (dubious_terms : List String)
    (content_text : Option String) (fp : FlaggedPost)
    (h : process_posting_parsed post dubious_terms content_text = some fp) :
    fp.flagged_terms.length = fp.flagged_section_indices.length ∧
    1 ≤ fp.flagged_terms.length ∧
    ∀ p ∈ fp.flagged_terms.zip fp.flagged_section_indices,
      strFind fp.job_body.data p.1.data = Int.ofNat p.2 ∧
      isPrefixList p.1.data (fp.job_body.data.drop p.2) = true := by
  cases content_text with
  | none => simp [process_posting_parsed] at h
  | some t =>
    simp only [process_posting_parsed] at h
    split at h
    · next hpos =>
      injection h with h2
      subst h2
      have hp := flagTermsLoop_pairs (pyLower t).data dubious_terms
      refine ⟨hp.1, hpos, ?_⟩
      intro p hp2
      have hfind := hp.2 p hp2
      exact ⟨hfind, strFind_ofNat_occurs _ _ _ hfind⟩
    · cases h

/-- The `FlaggedPost` produced for the body `"FELONY charges disqualify"`
and term set `{"felony"}`. -/
def sampleFlagged : FlaggedPost :=
  { url := samplePostCl.url
    job_name := samplePostCl.name
    job_body := "felony charges disqualify"
    post_time := samplePostCl.datetime
    flagged_terms := ["felony"]
    flagged_section_indices := [0] }

/-- Witness for C9 at a concrete posting whose body flags `"felony"` at
offset 0. -/
theorem flagged_post_invariant_witness :
    sampleFlagged.flagged_terms.length = sampleFlagged.flagged_section_indices.length ∧
    1 ≤ sampleFlagged.flagged_terms.length ∧
    ∀ p ∈ sampleFlagged.flagged_terms.zip sampleFlagged.flagged_section_indices,
      strFind sampleFlagged.job_body.data p.1.data = Int.ofNat p.2 ∧
      isPrefixList p.1.data (sampleFlagged.job_body.data.drop p.2) = true :=
  flagged_post_invariant samplePostCl ["felony"] (some "FELONY charges disqualify")
    sampleFlagged (by decide)

/-! ### C4: behaviour on missing DOM structure -/

/-- A result block whose title element is absent. -/
def blockNoTitle : Block :=
  { titleSpan := none, orgLink := some "Acme", snippet := some " snip "
    jobLinkAttrs := some [("href", "https://www.ziprecruiter.com/job/a")] }

/-- A result block whose organization link is absent. -/
def blockNoOrg : Block :=
  { titleSpan := some "Cashier", orgLink := none, snippet := some " snip "
    jobLinkAttrs := some [("href", "https://www.ziprecruiter.com/job/a")] }

/-- A result block whose snippet element is absent. -/
def blockNoSnippet : Block :=
  { titleSpan := some "Cashier", orgLink := some "Acme", snippet := none
    jobLinkAttrs := some [("href", "https://www.ziprecruiter.com/job/a")] }

/-- A result block whose job link is absent. -/
def blockNoLink : Block :=
  { titleSpan := some "Cashier", orgLink := some "Acme", snippet := some " snip "
    jobLinkAttrs := none }

/-- Counterexample to C4 as stated: `process_block` on a block whose title
element is absent raises (`None.text` is an `AttributeError`) instead of
returning a "no posting" result. -/
theorem process_block_missing_title_raises :
    process_block blockNoTitle "https://src" "felony" "illinois" =
      Except.error PyErr.attributeError := rfl

/-- C4 as amended: `process_posting` does soft-fail (returns `None`) when
the `postingbody` section is missing, but `process_block` raises
`AttributeError` whenever the title, organization link, snippet, or job
link element is absent from the block. -/
theorem missing_dom_behaviour (post : Post) (dubious_terms : List String)
    (block : Block) (src q loc : String) :
    (process_posting_parsed post dubious_terms none = none) ∧
    (block.titleSpan = none →
      process_block block src q loc = Except.error PyErr.attributeError) ∧
    (∀ t, block.titleSpan = some t → block.orgLink = none →
      process_block block src q loc = Except.error PyErr.attributeError) ∧
    (∀ t o, block.titleSpan = some t → block.orgLink = some o →
      block.snippet = none →
      process_block block src q loc = Except.error PyErr.attributeError) ∧
    (∀ t o s2, block.titleSpan = some t → block.orgLink = some o →
      block.snippet = some s2 → block.jobLinkAttrs = none →
      process_block block src q loc = Except.error PyErr.attributeError) := by
  refine ⟨rfl, ?_, ?_, ?_, ?_⟩
  · intro h1
    simp only [process_block]
    rw [h1]
    rfl
  · intro t h1 h2
    simp only [process_block]
    rw [h1, h2]
    rfl
  · intro t o h1 h2 h3
    simp only [process_block]
    rw [h1, h2, h3]
    rfl
  · intro t o s2 h1 h2 h3 h4
    simp only [process_block]
    rw [h1, h2, h3, h4]
    rfl

/-- Witness for C4's amended statement at concrete blocks, one per absent
element. -/
theorem missing_dom_behaviour_witness :
    process_posting_parsed samplePostCl ["felony"] none = none ∧
    process_block blockNoOrg "https://src" "felony" "illinois" =
      Except.error PyErr.attributeError ∧
    process_block blockNoSnippet "https://src" "felony" "illinois" =
      Except.error PyErr.attributeError ∧
    process_block blockNoLink "https://src" "felony" "illinois" =
      Except.error PyErr.attributeError :=
  ⟨(missing_dom_behaviour samplePostCl ["felony"] blockNoOrg "https://src" "felony"
      "illinois").1,
   (missing_dom_behaviour samplePostCl ["felony"] blockNoOrg "https://src" "felony"
      "illinois").2.2.1 "Cashier" rfl rfl,
   (missing_dom_behaviour samplePostCl ["felony"] blockNoSnippet "https://src" "felony"
      "illinois").2.2.2.1 "Cashier" "Acme" rfl rfl rfl,
   (missing_dom_behaviour samplePostCl ["felony"] blockNoLink "https://src" "felony"
      "illinois").2.2.2.2 "Cashier" "Acme" " snip " rfl rfl rfl rfl⟩

/-! ### C5: deduplication behaviour of the CSV writers -/

theorem writePostsRows_not_written (t : String) (l : List FlaggedPost) :
    ∀ written r, r ∈ writePostsRows t l written → r.url ∉ written := by
  induction l with
  | nil => intro written r hr; simp [writePostsRows] at hr
  | cons post rest ih =>
    intro written r hr
    simp only [writePostsRows] at hr
    split at hr
    · exact ih written r hr
    · next hnw =>
      rcases List.mem_cons.mp hr with rfl | h2
      · exact hnw
      · intro hc
        exact ih _ r h2 (List.mem_cons_of_mem _ hc)

theorem writePostsRows_urls_nodup (t : String) (l : List FlaggedPost) :
    ∀ written, ((writePostsRows t l written).map ClCsvRow.url).Nodup := by
  induction l with
  | nil => intro written; simp [writePostsRows]
  | cons post rest ih =>
    intro written
    simp only [writePostsRows]
    split
    · exact ih written
    · simp only [List.map_cons, List.nodup_cons]
      refine ⟨?_, ih _⟩
      intro hmem
      obtain ⟨r, hr, hre⟩ := List.mem_map.mp hmem
      have hnw := writePostsRows_not_written t rest _ r hr
      exact hnw (by rw [hre]; exact List.mem_cons_self _ _)

/-- Counterexample to C5 as stated: `write_csv` writes one row per input
element with no per-identity skipping, so on a non-deduplicated input it
emits two rows with the same `job_id`. -/
theorem write_csv_duplicate_job_id :
    ¬ ((write_csv [samplePost, samplePost]).map ZrCsvRow.job_id).Nodup := by
  simp [write_csv, JobPost.to_dict_with_id]

/-- C5 as amended: `write_posts_with_metadata` emits at most one row per
URL for every input (its per-run `post_urls_written` check); `write_csv`
emits exactly one row per input element, so it emits at most one row per
`generate_job_id` only when its input is already deduplicated, as it is at
its call site where it receives `dedupe_jobs` output. -/
theorem csv_row_per_key_amended :
    (∀ (t : String) (posts : List FlaggedPost) (cols : List String)
      (rows : List ClCsvRow),
      write_posts_with_metadata t posts = Except.ok (cols, rows) →
      (rows.map ClCsvRow.url).Nodup) ∧
    (∀ l : List JobPost,
      ((write_csv (dedupe_jobs l)).map ZrCsvRow.job_id).Nodup) ∧
    (∀ l : List JobPost, (write_csv l).length = l.length) := by
  refine ⟨?_, ?_, ?_⟩
  · intro t posts cols rows h
    cases posts with
    | nil => cases h
    | cons p0 rest =>
      simp only [write_posts_with_metadata, Except.ok.injEq, Prod.mk.injEq] at h
      rw [← h.2]
      exact writePostsRows_urls_nodup t (p0 :: rest) []
  · intro l
    have h2 : (write_csv (dedupe_jobs l)).map ZrCsvRow.job_id
        = (dedupe_jobs l).map JobPost.generate_job_id := by
      simp only [write_csv, List.map_map]
      rfl
    rw [h2]
    exact dedupeJobsAux_ids_nodup l []
  · intro l
    simp [write_csv]

/-- Witness for C5's amended statement: a singleton run through
`write_posts_with_metadata` yields rows with pairwise distinct URLs. -/
theorem csv_row_per_key_amended_witness :
    (([sampleFlagged.to_dict_for_csv "2020-07-06"] : List ClCsvRow).map
      ClCsvRow.url).Nodup :=
  csv_row_per_key_amended.1 "2020-07-06" [sampleFlagged]
    (flaggedPostCsvKeys ++ ["time_accessed"])
    [sampleFlagged.to_dict_for_csv "2020-07-06"] rfl

/-! ### C8: totality of `FlaggedPost.serialize` -/

theorem pyListGet_error {α : Type} (xs : List α) (i : Nat) (e : PyErr)
    (h : pyListGet xs i = Except.error e) : e = PyErr.indexError := by
  simp only [pyListGet] at h
  cases h1 : xs.get? i with
  | none => rw [h1] at h; injection h with h2; exact h2.symm
  | some x => rw [h1] at h; cases h

theorem pyListGet_ok_of_lt {α : Type} (xs : List α) (i : Nat)
    (h : i < xs.length) : ∃ x, pyListGet xs i = Except.ok x := by
  simp only [pyListGet]
  cases h1 : xs.get? i with
  | none => exact absurd (List.get?_eq_none.mp h1) (by omega)
  | some x => exact ⟨x, rfl⟩

theorem serializeStep_error_only_index (fp : FlaggedPost) (acc : String)
    (i : Nat) (e : PyErr) (h : serializeStep fp acc i = Except.error e) :
    e = PyErr.indexError := by
  simp only [serializeStep] at h
  cases h1 : pyListGet fp.flagged_section_indices i with
  | error e1 =>
    rw [h1] at h
    injection h with h2
    rw [← h2]
    exact pyListGet_error _ _ _ h1
  | ok v =>
    rw [h1] at h
    cases h2 : pyListGet fp.flagged_terms i with
    | error e2 =>
      rw [h2] at h
      injection h with h3
      rw [← h3]
      exact pyListGet_error _ _ _ h2
    | ok term =>
      rw [h2] at h
      cases h

theorem serializeStep_ok_of_lt (fp : FlaggedPost) (acc : String) (i : Nat)
    (hidx : i < fp.flagged_section_indices.length)
    (hterm : i < fp.flagged_terms.length) :
    ∃ s, serializeStep fp acc i = Except.ok s := by
  obtain ⟨v, hv⟩ := pyListGet_ok_of_lt fp.flagged_section_indices i hidx
  obtain ⟨t, ht⟩ := pyListGet_ok_of_lt fp.flagged_terms i hterm
  have hstep : serializeStep fp acc i =
      Except.ok (acc ++ "Flagged term: \"" ++ t ++ "\"\n" ++
        "Context of term: \"" ++ pyStrOfBytes (encodeAsciiIgnore
          (pySlice fp.job_body.data ((v : Int) - 40) ((v : Int) + 40))) ++
        "\"\n\n") := by
    simp only [serializeStep]
    rw [hv, ht]
  exact ⟨_, hstep⟩

theorem serializeLoop_error_only_index (fp : FlaggedPost) :
    ∀ (is : List Nat) (acc : String) (e : PyErr),
      serializeLoop fp is acc = Except.error e → e = PyErr.indexError := by
  intro is
  induction is with
  | nil => intro acc e h; cases h
  | cons i rest ih =>
    intro acc e h
    simp only [serializeLoop] at h
    cases hs : serializeStep fp acc i with
    | error e2 =>
      rw [hs] at h
      injection h with h2
      rw [← h2]
      exact serializeStep_error_only_index fp acc i e2 hs
    | ok s2 =>
      rw [hs] at h
      exact ih s2 e h

theorem serializeLoop_ok (fp : FlaggedPost)
    (hlen : fp.flagged_terms.length ≤ fp.flagged_section_indices.length) :
    ∀ (is : List Nat) (acc : String),
      (∀ i ∈ is, i < fp.flagged_terms.length) →
      ∃ s, serializeLoop fp is acc = Except.ok s := by
  intro is
  induction is with
  | nil => intro acc _; exact ⟨acc, rfl⟩
  | cons i rest ih =>
    intro acc hbound
    have hi := hbound i (List.mem_cons_self _ _)
    obtain ⟨s2, hs⟩ :=
      serializeStep_ok_of_lt fp acc i (Nat.lt_of_lt_of_le hi hlen) hi
    obtain ⟨s3, hs3⟩ := ih s2 (fun j hj => hbound j (List.mem_cons_of_mem _ hj))
    refine ⟨s3, ?_⟩
    simp only [serializeLoop]
    rw [hs]
    exact hs3

/-- Counterexample to C8 as stated: no `FlaggedPost` at all makes
`serialize` raise an encoding error — `encode('ascii', 'ignore')` never
raises, so the only exception `serialize` can raise is `IndexError` from
mismatched list lengths. -/
theorem serialize_no_unicode_error :
    ¬ ∃ fp : FlaggedPost,
      fp.serialize = Except.error PyErr.unicodeEncodeError := by
  intro ⟨fp, h⟩
  have := serializeLoop_error_only_index fp
    (List.range fp.flagged_terms.length) _ _ h
  cases this

/-- C8 as amended: `serialize` never raises an encoding error on any
`FlaggedPost` — the `('ascii', 'ignore')` handler silently drops non-ASCII
characters from the context window instead — and it is total (returns a
string) on every `FlaggedPost` whose index list is at least as long as its
term list, as all those built by `process_posting` are. -/
theorem serialize_total (fp : FlaggedPost) :
    fp.serialize ≠ Except.error PyErr.unicodeEncodeError ∧
    (fp.flagged_terms.length ≤ fp.flagged_section_indices.length →
      ∃ s, fp.serialize = Except.ok s) := by
  constructor
  · intro h
    have := serializeLoop_error_only_index fp
      (List.range fp.flagged_terms.length) _ _ h
    cases this
  · intro hlen
    exact serializeLoop_ok fp hlen (List.range fp.flagged_terms.length) _
      (fun i hi => List.mem_range.mp hi)

/-- A flagged post whose body has a non-ASCII character (é, code point
233) inside the 80-character context window around the flagged offset. -/
def sampleFlaggedUnicode : FlaggedPost :=
  { url := "https://chicago.craigslist.org/job/2"
    job_name := "Café staff"
    job_body := "café staff must pass a felony check"
    post_time := "2020-07-06 13:00"
    flagged_terms := ["felony"]
    flagged_section_indices := [23] }

/-- Witness for C8's amended statement: `serialize` succeeds on a post
with a non-ASCII character adjacent to the flagged offset. -/
theorem serialize_total_witness :
    sampleFlaggedUnicode.serialize ≠ Except.error PyErr.unicodeEncodeError ∧
    ∃ s, sampleFlaggedUnicode.serialize = Except.ok s :=
  ⟨(serialize_total sampleFlaggedUnicode).1,
    (serialize_total sampleFlaggedUnicode).2 (by decide)⟩

/-! ### C2: the cache round trip, and C10: empty CSV input -/

/-- A network returning the body `<html>` (bytes 60,104,116,109,108,62)
for every URL. -/
def netHtml : String → List Nat := fun _ => [60, 104, 116, 109, 108, 62]

/-- The first `process_posting` fetch of `http://x` with caching enabled,
starting from an empty cache directory. -/
def firstFetch : FetchResult :=
  fetch_raw_content netHtml "http://x" "cl_posts" false []

/-- The second fetch of the same URL, against the cache the first fetch
left behind. -/
def secondFetch : FetchResult :=
  fetch_raw_content netHtml "http://x" "cl_posts" false firstFetch.cache

/-- C2 (the code's divergence from it, at a concrete input): the first
fetch GETs the body `b"<html>"` and `write_cl_post_to_file` stores
`str(resp.content)`, the nine-character Python 3 repr `b'<html>'`; the
second fetch issues no network request but returns that repr string, which
is not byte-identical to the fetched response body. -/
theorem cache_round_trip_not_byte_identical :
    firstFetch.networkRequests = 1 ∧
    secondFetch.networkRequests = 0 ∧
    firstFetch.raw = RawContent.bytes [60, 104, 116, 109, 108, 62] ∧
    secondFetch.raw = RawContent.text "b'<html>'" ∧
    secondFetch.raw.asBytes ≠ firstFetch.raw.asBytes := by
  refine ⟨rfl, ?_, rfl, ?_, ?_⟩ <;> decide

/-- C10: `write_posts_with_metadata` on an empty post list raises
`IndexError` (from `post_objs[0]` while building the column names), before
any file output exists — the model returns the error in place of any
header or rows. -/
theorem write_posts_with_metadata_empty_raises (t : String) :
    write_posts_with_metadata t [] = Except.error PyErr.indexError := rfl
